import Mathlib

/- Shallow embedding of the PostgresCluster reconciler
   (src/internal/controller/postgrescluster/controller.go) and of the PgBouncer
   configuration generator (the pgbouncer source file shipped alongside it).
   Go errors are modelled as strings, Kubernetes API effects as oracle
   functions supplied in an environment record, and Go maps as association
   lists quantified over their iteration order. -/

namespace PostgresOperator

/-- Go errors are opaque values to this reconciler; model them as strings. -/
abbrev Err := String

/-- Model of controller-runtime reconcile.Result: a Requeue flag and a
RequeueAfter duration (nanoseconds; 0 means no delay requested). -/
structure Result where
  requeue : Bool
  requeueAfter : Nat
deriving DecidableEq, Repr

/-- The zero value reconcile.Result\x7b\x7d. -/
def Result.empty : Result := { requeue := false, requeueAfter := 0 }

/-- Model of the PostgresCluster status subresource: the observed generation
plus an opaque remainder (conditions and other stage-written fields). -/
structure Status where
  observedGeneration : Nat
  rest : List String
deriving DecidableEq, Repr

/-- Model of the PostgresCluster spec fields the reconciler reads:
the declared instance sets (contents opaque, only identity and order are
used), the PostgreSQL port, the PgBouncer proxy port and whether the proxy
section is present. -/
structure ClusterSpec where
  instanceSets : List String
  port : Nat
  pgBouncerPort : Nat
  proxyEnabled : Bool
deriving DecidableEq, Repr

/-- Model of a v1beta1.PostgresCluster object: immutable metadata
(name, namespace, generation, deletion timestamp), spec and status. -/
structure PostgresCluster where
  name : String
  nsName : String
  generation : Nat
  deletionTimestamp : Option Nat
  spec : ClusterSpec
  status : Status
deriving DecidableEq, Repr

/-! PgBouncer configuration generator (source: the pgbouncer file of this
repository, functions iniValueSet.String, authFileContents, clusterINI). -/

/-- Source constant configDirectory. -/
def configDirectory : String := "/etc/pgbouncer"

/-- Source constant authFileProjectionPath. -/
def authFileProjectionPath : String := "~postgres-operator/users.txt"

/-- Source constant iniFileProjectionPath. -/
def iniFileProjectionPath : String := "~postgres-operator.ini"

/-- Source constant authFileAbsolutePath. -/
def authFileAbsolutePath : String := configDirectory ++ "/" ++ authFileProjectionPath

/-- Source constant iniFileAbsolutePath. -/
def iniFileAbsolutePath : String := configDirectory ++ "/" ++ iniFileProjectionPath

/-- Source constant iniGeneratedWarning. -/
def iniGeneratedWarning : String :=
  "# Generated by postgres-operator. DO NOT EDIT.\n" ++
  "# Your changes will not be saved.\n"

/-- Modelled from the spec: the pooler's backend PostgreSQL user identity
(constant postgresqlUser of the pgbouncer package; its defining file is not
under src/). The spec calls it the authenticating-user identity / bootstrap
role of the pooler; its concrete spelling is irrelevant to the claims. -/
def postgresqlUser : String := "_crunchypgbouncer"

/-- Modelled from the spec: fixed in-container path of the pooler's frontend
TLS certificate (constant of the pgbouncer package, not under src/). -/
def certFrontendAbsolutePath : String := configDirectory ++ "/frontend-tls.crt"

/-- Modelled from the spec: fixed in-container path of the pooler's frontend
TLS private key (constant of the pgbouncer package, not under src/). -/
def certFrontendPrivateKeyAbsolutePath : String := configDirectory ++ "/frontend-tls.key"

/-- Modelled from the spec: fixed in-container path of the certificate
authority for the pooler's frontend (constant of the pgbouncer package, not
under src/). -/
def certFrontendAuthorityAbsolutePath : String := configDirectory ++ "/frontend-ca.crt"

/-- Modelled from the spec: fixed in-container path of the certificate
authority for the pooler's backend connections (constant of the pgbouncer
package, not under src/). -/
def certBackendAuthorityAbsolutePath : String := configDirectory ++ "/backend-ca.crt"

/-- Modelled from the spec: naming.ClusterPrimaryService (naming package not
under src/) returns a Service whose name is derived deterministically from
the cluster identity; only its Name is read here. -/
def clusterPrimaryServiceName (cluster : PostgresCluster) : String :=
  cluster.name ++ "-primary"

/-- Model of the Go type iniValueSet = map[string]string: an association
list of key/value bindings. Go map iteration order is arbitrary, so a map
value is represented by any permutation of its bindings; theorems quantify
over that order. -/
abbrev iniValueSet := List (String × String)

/-- The keys of a value set, in representation (iteration) order. -/
def iniKeys (vs : iniValueSet) : List String := vs.map Prod.fst

/-- Go map lookup vs[k] for a key known to be present (absent keys yield
the zero value ""). -/
def iniLookup (vs : iniValueSet) (k : String) : String :=
  match vs.find? (fun p => p.1 == k) with
  | some p => p.2
  | none => ""

/-- The emission order of iniValueSet.String: the keys collected from the
map, sorted ascending (source: sort.Strings, which produces the unique
ascending ordering of the keys; insertion sort realizes the same order). -/
def iniEmitOrder (vs : iniValueSet) : List String :=
  List.insertionSort (fun a b => a ≤ b) (iniKeys vs)

/-- Model of the method iniValueSet.String: emit one "key = value" line per
binding, keys in sorted order. -/
def iniValueSetString (vs : iniValueSet) : String :=
  (iniEmitOrder vs).foldl (fun b k => b ++ k ++ " = " ++ iniLookup vs k ++ "\n") ""

/-- Character-wise model of strings.ReplaceAll(s, quote, quotequote) used by
authFileContents: every double-quote character is replaced by two of them
(for a one-character pattern, ReplaceAll is exactly this char-wise
expansion). -/
def doubleQuotes (s : String) : String :=
  ⟨s.data.flatMap (fun c => if c = '"' then ['"', '"'] else [c])⟩

/-- Model of the local function quote of authFileContents: surround a field
value with double quotes, doubling any embedded double quote. -/
def quoteField (s : String) : String :=
  "\"" ++ doubleQuotes s ++ "\""

/-- Model of authFileContents: the PgBouncer user database, one line for the
pooler's PostgreSQL user and the given password. Go byte slices are modelled
as strings. -/
def authFileContents (password : String) : String :=
  quoteField postgresqlUser ++ " " ++ quoteField password ++ "\n"

/-- The "early" value set of clusterINI (global auth_user, which must appear
before the first databases section). -/
def earlyINI : iniValueSet := [("auth_user", postgresqlUser)]

/-- The databases section of clusterINI: a wildcard pool pointing at the
cluster's primary service on the PostgreSQL port. -/
def databasesINI (cluster : PostgresCluster) : String :=
  "[databases]\n* = host=" ++ clusterPrimaryServiceName cluster ++
  " port=" ++ toString cluster.spec.port ++ "\n"

/-- The "defaults" value set of clusterINI. -/
def defaultsINI : iniValueSet := [("ignore_startup_parameters", "extra_float_digits")]

/-- The "mandatory" value set of clusterINI, in the order the bindings are
written in the source map literal. -/
def mandatoryINI (cluster : PostgresCluster) : iniValueSet :=
  [("auth_file", authFileAbsolutePath),
   ("auth_query", "SELECT username, password from pgbouncer.get_auth($1)"),
   ("auth_user", postgresqlUser),
   ("client_tls_sslmode", "require"),
   ("client_tls_cert_file", certFrontendAbsolutePath),
   ("client_tls_key_file", certFrontendPrivateKeyAbsolutePath),
   ("client_tls_ca_file", certFrontendAuthorityAbsolutePath),
   ("conffile", iniFileAbsolutePath),
   ("listen_addr", "*"),
   ("listen_port", toString cluster.spec.pgBouncerPort),
   ("server_tls_sslmode", "verify-full"),
   ("server_tls_ca_file", certBackendAuthorityAbsolutePath),
   ("unix_socket_dir", "")]

/-- Assembly of clusterINI from explicit representations (iteration orders)
of its three value sets: warning header, early set, databases section,
defaults set, mandatory set, with a section header before each value set. -/
def clusterINIWithReps (cluster : PostgresCluster)
    (earlyRep defaultsRep mandatoryRep : iniValueSet) : String :=
  iniGeneratedWarning ++
  "\n[pgbouncer]\n" ++ iniValueSetString earlyRep ++ databasesINI cluster ++
  "\n[pgbouncer]\n" ++ iniValueSetString defaultsRep ++
  "\n[pgbouncer]\n" ++ iniValueSetString mandatoryRep

/-- Model of clusterINI: the assembly applied to the value sets as written
in the source. -/
def clusterINI (cluster : PostgresCluster) : String :=
  clusterINIWithReps cluster earlyINI defaultsINI (mandatoryINI cluster)

/-! HBA rule construction (source: controller.go lines 161-172; the HBA
builder itself lives in the postgres package, which is not under src/, and
is modelled from the spec). -/

/-- Model of a single pg_hba entry: connection type, database, user and
authentication method. -/
structure HBA where
  conntype : String
  database : String
  user : String
  method : String
deriving DecidableEq, Repr

/-- Modelled from the spec: postgres.NewHBA (postgres package, not under
src/) starts a rule matching all databases and all users. -/
def NewHBA : HBA := { conntype := "", database := "all", user := "all", method := "" }

/-- Modelled from the spec: builder method Local selects local (socket)
connections. -/
def HBA.Local (h : HBA) : HBA := { h with conntype := "local" }

/-- Modelled from the spec: builder method TCP selects TCP connections. -/
def HBA.TCP (h : HBA) : HBA := { h with conntype := "host" }

/-- Modelled from the spec: builder method TLS selects TLS-protected TCP
connections. -/
def HBA.TLS (h : HBA) : HBA := { h with conntype := "hostssl" }

/-- Modelled from the spec: builder method User restricts the rule to one
user. -/
def HBA.User (h : HBA) (u : String) : HBA := { h with user := u }

/-- Modelled from the spec: builder method Database restricts the rule to
one database. -/
def HBA.Database (h : HBA) (d : String) : HBA := { h with database := d }

/-- Modelled from the spec: builder method Replication selects replication
connections. -/
def HBA.Replication (h : HBA) : HBA := { h with database := "replication" }

/-- Modelled from the spec: builder method Method sets the authentication
method of the rule. -/
def HBA.Method (h : HBA) (m : String) : HBA := { h with method := m }

/-- Modelled from the spec: naming.PGReplicationUsername (naming package,
not under src/), the replication user of the cluster. -/
def pgReplicationUsername : String := "_crunchyrepl"

/-- Model of postgres.HBAs: the mandatory rules followed, when rendered, by
the default rules. -/
structure HBAs where
  mandatory : List HBA := []
  default : List HBA := []
deriving DecidableEq, Repr

/-- Modelled from the spec: the pooler-contributed HBA rules appended by
pgbouncer.PostgreSQL (not under src/); when the proxy section is present it
contributes rules for the pooler's PostgreSQL user over TCP. -/
def pgbouncerPostgreSQLRules (cluster : PostgresCluster) : List HBA :=
  if cluster.spec.proxyEnabled
  then [((NewHBA.TCP).User postgresqlUser).Method "md5"]
  else []

/-- Modelled from the spec: pgbouncer.PostgreSQL(cluster, pgHBAs) appends
the pooler-contributed rules after the mandatory rules already present
(the spec places them after the fixed mandatory prefix and before the
default entries). -/
def pgbouncerPostgreSQL (cluster : PostgresCluster) (h : HBAs) : HBAs :=
  { h with mandatory := h.mandatory ++ pgbouncerPostgreSQLRules cluster }

/-- Translation of controller.go lines 161-172: build the HBA rule set
passed to the configuration stages — four mandatory entries appended one by
one, then the pooler contribution, then the default TLS catch-all. -/
def buildPGHBAs (cluster : PostgresCluster) : HBAs :=
  let pgHBAs : HBAs := {}
  let pgHBAs := { pgHBAs with mandatory := pgHBAs.mandatory ++ [((NewHBA.Local).User "postgres").Method "peer"] }
  let pgHBAs := { pgHBAs with mandatory := pgHBAs.mandatory ++ [((((NewHBA.TCP).User pgReplicationUsername).Replication)).Method "md5"] }
  let pgHBAs := { pgHBAs with mandatory := pgHBAs.mandatory ++ [(((NewHBA.TCP).User pgReplicationUsername).Database "postgres").Method "md5"] }
  let pgHBAs := { pgHBAs with mandatory := pgHBAs.mandatory ++ [(((NewHBA.TCP).User pgReplicationUsername)).Method "reject"] }
  let pgHBAs := pgbouncerPostgreSQL cluster pgHBAs
  { pgHBAs with default := pgHBAs.default ++ [(NewHBA.TLS).Method "md5"] }

/-! The reconcile control loop (source: controller.go, func Reconcile). -/

/-- The pipeline stage functions called by Reconcile, in source order; the
per-instance-set stage is indexed by the position of the instance set in
the spec. -/
inductive Stage where
  | patroniStatus
  | pgUserSecret
  | clusterConfigMap
  | rootCertificate
  | clusterPodService
  | patroniLeaderLease
  | clusterPrimaryService
  | clusterCertificate
  | patroniDistributedConfiguration
  | patroniDynamicConfiguration
  | instanceSet (i : Nat)
  | pgBackRest
  | pgBouncer
deriving DecidableEq, Repr

/-- A Go runtime fault. The only one this model can reach is the nil
pointer dereference of instanceSet.Items in the instance-set loop. -/
inductive GoPanic where
  | nilPointerDereference
deriving DecidableEq, Repr

/-- Outcome of the initial cache Get: absent object or another error. -/
inductive GetErr where
  | notFound
  | other (e : Err)
deriving DecidableEq, Repr

/-- The environment of one reconcile attempt: the behavior of every
external call Reconcile makes (client Get, deletion handling, each stage
function, the status Patch) and of the logger. Stage functions may mutate
the in-memory status and return an error; the instance-set stage also
returns a StatefulSet list (none models a nil pointer) whose items carry
the instance names; pgBackRest also returns a reconcile result. -/
structure Env where
  getErr : Option GetErr
  defaultSpec : ClusterSpec → ClusterSpec
  deleteErr : Option Err
  deleteResult : Result
  logV1Enabled : Bool
  stageErr : Stage → Option Err
  stageStatus : Stage → Status → Status
  instanceSetList : Nat → Option (List String)
  pgBackRestResult : Result
  patchErr : Option Err

/-- Modelled from the spec: updateReconcileResult (helper of this
repository, not under src/) merges two reconcile results keeping the
strongest signal — an immediate-requeue flag dominates, and of two
requeue-after delays the smaller wins (zero meaning no delay requested). -/
def updateReconcileResult (curr next : Result) : Result :=
  { requeue := curr.requeue || next.requeue,
    requeueAfter :=
      if next.requeueAfter = 0 then curr.requeueAfter
      else if curr.requeueAfter = 0 then next.requeueAfter
      else min curr.requeueAfter next.requeueAfter }

/-- Modelled from the spec: handleDelete (this repository, not under src/)
returns no result for an object not marked for deletion; for an object
marked for deletion it runs cleanup and returns its outcome, or its
error. -/
def handleDelete (env : Env) (cluster : PostgresCluster) : Except Err (Option Result) :=
  if cluster.deletionTimestamp.isSome then
    match env.deleteErr with
    | some e => Except.error e
    | none => Except.ok (some env.deleteResult)
  else Except.ok none

/-- The mutable state threaded through the pipeline: the err variable, the
in-memory status, the stages invoked so far (in order), the collected
instance names and the aggregated result. -/
structure PipeState where
  err : Option Err
  status : Status
  ran : List Stage
  names : List String
  result : Result
deriving DecidableEq, Repr

/-- One guarded pipeline step, translating one `if err == nil` block of
Reconcile: when err is non-nil the block is skipped entirely; otherwise the
stage function runs (recorded in ran, mutating status, setting err). The
instance-set block additionally dereferences the returned list — a nil
list is a Go panic — and collects the item names even when the stage also
returned an error. The pgBackRest block routes its result through
updateResult, which merges it only when the stage returned no error.
runStageBody is the body of one such block (the stage invocation), and
runStage wraps it in the `if err == nil` guard: when err is non-nil the
whole block is skipped and the state is unchanged. -/
def runStageBody (env : Env) (s : Stage) (st : PipeState) : Except GoPanic PipeState :=
  match s with
  | Stage.instanceSet i =>
    let st1 : PipeState :=
      { st with ran := st.ran ++ [s], status := env.stageStatus s st.status,
                err := env.stageErr s }
    match env.instanceSetList i with
    | none => Except.error GoPanic.nilPointerDereference
    | some items => Except.ok { st1 with names := st1.names ++ items }
  | Stage.pgBackRest =>
    let e := env.stageErr s
    Except.ok
      { st with ran := st.ran ++ [s], status := env.stageStatus s st.status,
                err := e,
                result := if e = none
                          then updateReconcileResult st.result env.pgBackRestResult
                          else st.result }
  | _ =>
    Except.ok
      { st with ran := st.ran ++ [s], status := env.stageStatus s st.status,
                err := env.stageErr s }

def runStage (env : Env) (s : Stage) (st : PipeState) : Except GoPanic PipeState :=
  if st.err = none then runStageBody env s st else Except.ok st

/-- Run a list of guarded pipeline steps in order; a panic aborts the rest. -/
def runStages (env : Env) : List Stage → PipeState → Except GoPanic PipeState
  | [], st => Except.ok st
  | s :: rest, st =>
    match runStage env s st with
    | Except.error p => Except.error p
    | Except.ok st1 => runStages env rest st1

/-- The ten stage calls that precede the instance-set loop, in source
order. -/
def leadingStages : List Stage :=
  [Stage.patroniStatus, Stage.pgUserSecret, Stage.clusterConfigMap,
   Stage.rootCertificate, Stage.clusterPodService, Stage.patroniLeaderLease,
   Stage.clusterPrimaryService, Stage.clusterCertificate,
   Stage.patroniDistributedConfiguration, Stage.patroniDynamicConfiguration]

/-- The full pipeline for a cluster with n instance sets: the leading
stages, one instance-set stage per declared set, then pgBackRest and
pgBouncer. -/
def pipelineStages (n : Nat) : List Stage :=
  leadingStages ++ (List.range n).map Stage.instanceSet ++
  [Stage.pgBackRest, Stage.pgBouncer]

/-- Everything observable about one reconcile attempt: the returned result
and error, the stages invoked, the instance names collected, the events
recorded, whether the status subresource was patched, the in-memory status
at return, and the status stored in the API after the attempt. -/
structure Outcome where
  result : Result
  error : Option Err
  ran : List Stage
  names : List String
  events : List (String × String)
  patched : Bool
  finalStatus : Status
  persistedStatus : Status
deriving DecidableEq, Repr

/-- The pipeline phase of Reconcile (controller.go lines 185-252), entered
once the fetched, defaulted cluster has passed the deletion and name
checks: run the guarded stage sequence, set observedGeneration
unconditionally, then patch the status subresource only when no error
occurred and the status differs from the pre-reconcile snapshot. -/
def pipelinePhase (env : Env) (stored cluster : PostgresCluster) : Except GoPanic Outcome :=
  match runStages env (pipelineStages cluster.spec.instanceSets.length)
      { err := none, status := cluster.status, ran := [], names := [],
        result := Result.empty } with
  | Except.error p => Except.error p
  | Except.ok st =>
    let finalStatus : Status := { st.status with observedGeneration := cluster.generation }
    if st.err = none ∧ ¬ finalStatus = cluster.status then
      match env.patchErr with
      | some e =>
        Except.ok { result := st.result, error := some e, ran := st.ran,
                    names := st.names, events := [], patched := true,
                    finalStatus := finalStatus, persistedStatus := stored.status }
      | none =>
        Except.ok { result := st.result, error := none, ran := st.ran,
                    names := st.names, events := [], patched := true,
                    finalStatus := finalStatus, persistedStatus := finalStatus }
    else
      Except.ok { result := st.result, error := st.err, ran := st.ran,
                  names := st.names, events := [], patched := false,
                  finalStatus := finalStatus, persistedStatus := stored.status }

/-- Model of func (r *Reconciler) Reconcile: fetch the object (NotFound is
ignored, other Get errors are returned with the zero result), apply
in-memory defaults (which touch only the spec), snapshot the status, handle
deletion (its error returns the zero result; its outcome is returned after
the verbose-logging block possibly sets Requeue), reject the reserved name
"postgres" with a warning event and no error, and otherwise run the
pipeline phase. -/
def reconcile (env : Env) (stored : PostgresCluster) : Except GoPanic Outcome :=
  match env.getErr with
  | some GetErr.notFound =>
    Except.ok { result := Result.empty, error := none, ran := [], names := [],
                events := [], patched := false, finalStatus := stored.status,
                persistedStatus := stored.status }
  | some (GetErr.other e) =>
    Except.ok { result := Result.empty, error := some e, ran := [], names := [],
                events := [], patched := false, finalStatus := stored.status,
                persistedStatus := stored.status }
  | none =>
    let cluster : PostgresCluster := { stored with spec := env.defaultSpec stored.spec }
    match handleDelete env cluster with
    | Except.error e =>
      Except.ok { result := Result.empty, error := some e, ran := [], names := [],
                  events := [], patched := false, finalStatus := cluster.status,
                  persistedStatus := stored.status }
    | Except.ok (some r) =>
      let r := if env.logV1Enabled ∧ 0 < r.requeueAfter
               then { r with requeue := true } else r
      Except.ok { result := r, error := none, ran := [], names := [],
                  events := [], patched := false, finalStatus := cluster.status,
                  persistedStatus := stored.status }
    | Except.ok none =>
      if cluster.name = "postgres" then
        Except.ok { result := Result.empty, error := none, ran := [], names := [],
                    events := [("Warning", "InvalidName")], patched := false,
                    finalStatus := cluster.status, persistedStatus := stored.status }
      else
        pipelinePhase env stored cluster

/-- The first mandatory HBA entry: local peer authentication for the
user postgres. -/
def hbaLocalPostgresPeer : HBA :=
  { conntype := "local", database := "all", user := "postgres", method := "peer" }

/-- The second mandatory HBA entry: the replication user over TCP for
replication connections with method md5. -/
def hbaReplicationMd5 : HBA :=
  { conntype := "host", database := "replication", user := pgReplicationUsername,
    method := "md5" }

/-- The third mandatory HBA entry: the replication user over TCP to the
database postgres with method md5. -/
def hbaReplicationDatabaseMd5 : HBA :=
  { conntype := "host", database := "postgres", user := pgReplicationUsername,
    method := "md5" }

/-- The fourth mandatory HBA entry: all other replication-user TCP
connections rejected. -/
def hbaReplicationReject : HBA :=
  { conntype := "host", database := "all", user := pgReplicationUsername,
    method := "reject" }

/-- The default HBA entry: TLS connections with method md5. -/
def hbaDefaultTLSMd5 : HBA :=
  { conntype := "hostssl", database := "all", user := "all", method := "md5" }

/-! Concrete inputs used to evaluate the model (witnesses and
counterexamples). -/

/-- A concrete environment in which every external call succeeds: no Get
error, defaults are the identity, no deletion activity, each stage
succeeds leaving the status unchanged, each instance set yields one
StatefulSet, pgBackRest asks to be checked again after 30 units and the
status patch succeeds. -/
def envAllOk : Env :=
  { getErr := none, defaultSpec := fun sp => sp, deleteErr := none,
    deleteResult := Result.empty, logV1Enabled := false,
    stageErr := fun _ => none, stageStatus := fun _ st => st,
    instanceSetList := fun _ => some ["demo-instance-0"],
    pgBackRestResult := { requeue := false, requeueAfter := 30 },
    patchErr := none }

/-- A concrete stored cluster named demo with one instance set, generation
2 and observed generation 1. -/
def demoCluster : PostgresCluster :=
  { name := "demo", nsName := "ns", generation := 2, deletionTimestamp := none,
    spec := { instanceSets := ["set1"], port := 5432, pgBouncerPort := 5433,
              proxyEnabled := true },
    status := { observedGeneration := 1, rest := ["cond"] } }

def c1env : Env :=
  { envAllOk with stageErr := fun s => if s = Stage.clusterConfigMap then some "boom" else none }

def c1stored : PostgresCluster := demoCluster

def c1out : Outcome :=
  { result := Result.empty, error := some "boom",
    ran := [Stage.patroniStatus, Stage.pgUserSecret, Stage.clusterConfigMap],
    names := [], events := [], patched := false,
    finalStatus := { observedGeneration := 2, rest := ["cond"] },
    persistedStatus := { observedGeneration := 1, rest := ["cond"] } }

def c2env : Env := envAllOk

def c2stored : PostgresCluster :=
  { demoCluster with name := "demo2" }

def c2out : Outcome :=
  { result := { requeue := false, requeueAfter := 30 }, error := none,
    ran := [Stage.patroniStatus, Stage.pgUserSecret, Stage.clusterConfigMap,
            Stage.rootCertificate, Stage.clusterPodService, Stage.patroniLeaderLease,
            Stage.clusterPrimaryService, Stage.clusterCertificate,
            Stage.patroniDistributedConfiguration, Stage.patroniDynamicConfiguration,
            Stage.instanceSet 0, Stage.pgBackRest, Stage.pgBouncer],
    names := ["demo-instance-0"], events := [], patched := true,
    finalStatus := { observedGeneration := 2, rest := ["cond"] },
    persistedStatus := { observedGeneration := 2, rest := ["cond"] } }

def c3env : Env := envAllOk

def c3stored : PostgresCluster :=
  { demoCluster with name := "postgres" }

def c4env : Env :=
  { envAllOk with
    stageErr := fun s => if s = Stage.pgBouncer then some "bouncer" else none,
    pgBackRestResult := { requeue := false, requeueAfter := 5 } }

def c4stored : PostgresCluster :=
  { demoCluster with name := "demo4" }

def c4out : Outcome :=
  { result := { requeue := false, requeueAfter := 5 }, error := some "bouncer",
    ran := [Stage.patroniStatus, Stage.pgUserSecret, Stage.clusterConfigMap,
            Stage.rootCertificate, Stage.clusterPodService, Stage.patroniLeaderLease,
            Stage.clusterPrimaryService, Stage.clusterCertificate,
            Stage.patroniDistributedConfiguration, Stage.patroniDynamicConfiguration,
            Stage.instanceSet 0, Stage.pgBackRest, Stage.pgBouncer],
    names := ["demo-instance-0"], events := [], patched := false,
    finalStatus := { observedGeneration := 2, rest := ["cond"] },
    persistedStatus := { observedGeneration := 1, rest := ["cond"] } }

def c5env : Env :=
  { envAllOk with logV1Enabled := true,
                  deleteResult := { requeue := false, requeueAfter := 5 } }

def c5stored : PostgresCluster :=
  { demoCluster with name := "demo5", deletionTimestamp := some 7 }

def c5out : Outcome :=
  { result := { requeue := true, requeueAfter := 5 }, error := none,
    ran := [], names := [], events := [], patched := false,
    finalStatus := { observedGeneration := 1, rest := ["cond"] },
    persistedStatus := { observedGeneration := 1, rest := ["cond"] } }

def c6env : Env :=
  { envAllOk with stageErr := fun s => if s = Stage.clusterPodService then some "svc" else none }

def c6stored : PostgresCluster :=
  { demoCluster with name := "demo6" }

def c6out : Outcome :=
  { result := Result.empty, error := some "svc",
    ran := [Stage.patroniStatus, Stage.pgUserSecret, Stage.clusterConfigMap,
            Stage.rootCertificate, Stage.clusterPodService],
    names := [], events := [], patched := false,
    finalStatus := { observedGeneration := 2, rest := ["cond"] },
    persistedStatus := { observedGeneration := 1, rest := ["cond"] } }

def c10env : Env :=
  { envAllOk with
    stageErr := fun s => if s = Stage.instanceSet 0 then some "iserr" else none,
    instanceSetList := fun _ => none }

def c10stored : PostgresCluster :=
  { demoCluster with name := "demo10" }

def c8cluster : PostgresCluster :=
  { demoCluster with name := "demo8" }

/-- The reversed iteration order of the early value set of c8cluster. -/
def c8earlyRep : iniValueSet := earlyINI.reverse

/-- The reversed iteration order of the defaults value set of c8cluster. -/
def c8defaultsRep : iniValueSet := defaultsINI.reverse

/-- The reversed iteration order of the mandatory value set of c8cluster. -/
def c8mandatoryRep : iniValueSet := (mandatoryINI c8cluster).reverse

/-- Decidable equality for Except values, used to evaluate the model at
concrete inputs. -/
instance {ε α : Type} [DecidableEq ε] [DecidableEq α] : DecidableEq (Except ε α) := fun a b =>
  match a, b with
  | Except.ok x, Except.ok y =>
    if h : x = y then isTrue (by rw [h]) else isFalse (fun hh => h (Except.ok.inj hh))
  | Except.error x, Except.error y =>
    if h : x = y then isTrue (by rw [h]) else isFalse (fun hh => h (Except.error.inj hh))
  | Except.ok _, Except.error _ => isFalse (fun hh => Except.noConfusion hh)
  | Except.error _, Except.ok _ => isFalse (fun hh => Except.noConfusion hh)

/-- The invariant the guarded pipeline maintains: while err is nil every
invoked stage succeeded, and in any case every invoked stage except
possibly the last one succeeded. -/
def StageInv (env : Env) (st : PipeState) : Prop :=
  (st.err = none → ∀ s ∈ st.ran, env.stageErr s = none) ∧
  (∀ s ∈ st.ran.dropLast, env.stageErr s = none)

theorem runStage_skip (env : Env) (s : Stage) (st : PipeState)
    (he : ¬ st.err = none) : runStage env s st = Except.ok st := by
  unfold runStage
  rw [if_neg he]

theorem runStage_ok_char (env : Env) (s : Stage) (st st1 : PipeState)
    (he : st.err = none) (h : runStage env s st = Except.ok st1) :
    st1.ran = st.ran ++ [s] ∧ st1.err = env.stageErr s := by
  unfold runStage at h
  rw [if_pos he] at h
  cases s
  case instanceSet i =>
    simp only [runStageBody] at h
    cases hl : env.instanceSetList i <;> simp only [hl] at h
    · exact Except.noConfusion h
    · cases h
      exact ⟨rfl, rfl⟩
  all_goals (simp only [runStageBody] at h; cases h; exact ⟨rfl, rfl⟩)

theorem runStageBody_result_char (env : Env) (s : Stage) (st st1 : PipeState)
    (hs : ¬ s = Stage.pgBackRest) (h : runStageBody env s st = Except.ok st1) :
    st1.result = st.result := by
  cases s
  case pgBackRest => exact absurd rfl hs
  case instanceSet i =>
    simp only [runStageBody] at h
    cases hl : env.instanceSetList i <;> simp only [hl] at h
    · exact Except.noConfusion h
    · cases h; rfl
  all_goals (simp only [runStageBody] at h; cases h; rfl)

theorem runStage_result_char (env : Env) (s : Stage) (st st1 : PipeState)
    (hs : ¬ s = Stage.pgBackRest) (h : runStage env s st = Except.ok st1) :
    st1.result = st.result := by
  unfold runStage at h
  by_cases he : st.err = none
  · rw [if_pos he] at h
    exact runStageBody_result_char env s st st1 hs h
  · rw [if_neg he] at h
    cases h; rfl

theorem stageInv_step (env : Env) (s : Stage) (st st1 : PipeState)
    (h : runStage env s st = Except.ok st1) (hi : StageInv env st) :
    StageInv env st1 := by
  by_cases he : st.err = none
  · obtain ⟨hran, herr⟩ := runStage_ok_char env s st st1 he h
    constructor
    · intro h1 t ht
      rw [hran] at ht
      rcases List.mem_append.mp ht with hmem | hmem
      · exact hi.1 he t hmem
      · rw [List.mem_singleton] at hmem
        subst hmem
        rw [← herr, h1]
    · intro t ht
      rw [hran, List.dropLast_concat] at ht
      exact hi.1 he t ht
  · rw [runStage_skip env s st he] at h
    cases h
    exact hi

theorem runStages_inv (env : Env) (L : List Stage) (st st1 : PipeState)
    (h : runStages env L st = Except.ok st1) (hi : StageInv env st) :
    StageInv env st1 := by
  induction L generalizing st with
  | nil => cases h; exact hi
  | cons s rest ih =>
    simp only [runStages] at h
    cases hr : runStage env s st with
    | error p => rw [hr] at h; exact absurd h (fun hh => Except.noConfusion hh)
    | ok st2 =>
      rw [hr] at h
      exact ih st2 h (stageInv_step env s st st2 hr hi)

theorem runStages_err_frozen (env : Env) (L : List Stage) (st : PipeState)
    (he : ¬ st.err = none) : runStages env L st = Except.ok st := by
  induction L with
  | nil => rfl
  | cons s rest ih =>
    simp only [runStages]
    rw [runStage_skip env s st he]
    exact ih

theorem runStages_append (env : Env) (L1 L2 : List Stage) (st : PipeState) :
    runStages env (L1 ++ L2) st =
      match runStages env L1 st with
      | Except.error p => Except.error p
      | Except.ok st1 => runStages env L2 st1 := by
  induction L1 generalizing st with
  | nil => rfl
  | cons s rest ih =>
    simp only [List.cons_append, runStages]
    cases runStage env s st with
    | error p => rfl
    | ok st1 => exact ih st1

theorem runStages_all_ok (env : Env) (L : List Stage) (st st1 : PipeState)
    (h : runStages env L st = Except.ok st1)
    (hall : ∀ s ∈ L, env.stageErr s = none) (h0 : st.err = none) :
    st1.err = none := by
  induction L generalizing st with
  | nil => cases h; exact h0
  | cons s rest ih =>
    simp only [runStages] at h
    cases hr : runStage env s st with
    | error p => rw [hr] at h; exact absurd h (fun hh => Except.noConfusion hh)
    | ok st2 =>
      rw [hr] at h
      obtain ⟨_, herr⟩ := runStage_ok_char env s st st2 h0 hr
      have h2 : st2.err = none := by
        rw [herr]
        exact hall s (List.mem_cons_self s rest)
      exact ih st2 h (fun t ht => hall t (List.mem_cons_of_mem s ht)) h2

theorem runStages_result_eq (env : Env) (L : List Stage) (st st1 : PipeState)
    (hL : ∀ s ∈ L, ¬ s = Stage.pgBackRest)
    (h : runStages env L st = Except.ok st1) : st1.result = st.result := by
  induction L generalizing st with
  | nil => cases h; rfl
  | cons s rest ih =>
    simp only [runStages] at h
    cases hr : runStage env s st with
    | error p => rw [hr] at h; exact absurd h (fun hh => Except.noConfusion hh)
    | ok st2 =>
      rw [hr] at h
      have h2 := ih st2 (fun t ht => hL t (List.mem_cons_of_mem s ht)) h
      rw [h2]
      exact runStage_result_char env s st st2 (hL s (List.mem_cons_self s rest)) hr

theorem runStageBody_no_instance_ok (env : Env) (s : Stage) (st : PipeState)
    (hs : ∀ i, ¬ s = Stage.instanceSet i) :
    ∃ st2, runStageBody env s st = Except.ok st2 ∧ st2.err = env.stageErr s := by
  cases s
  case instanceSet i => exact absurd rfl (hs i)
  all_goals (simp only [runStageBody]; exact ⟨_, rfl, rfl⟩)

theorem runStages_no_instance_ok (env : Env) (L : List Stage) (st : PipeState)
    (hL : ∀ s ∈ L, ∀ i, ¬ s = Stage.instanceSet i) :
    ∃ st1, runStages env L st = Except.ok st1 ∧
      (st.err = none → (∀ s ∈ L, env.stageErr s = none) → st1.err = none) := by
  induction L generalizing st with
  | nil => exact ⟨st, rfl, fun h0 _ => h0⟩
  | cons s rest ih =>
    by_cases he : st.err = none
    · have hok : ∃ st2, runStage env s st = Except.ok st2 ∧ st2.err = env.stageErr s := by
        unfold runStage
        rw [if_pos he]
        exact runStageBody_no_instance_ok env s st (hL _ (List.mem_cons_self _ rest))
      obtain ⟨st2, hr, herr⟩ := hok
      obtain ⟨st3, hrest, hprop⟩ := ih st2 (fun t ht i => hL t (List.mem_cons_of_mem s ht) i)
      refine ⟨st3, ?_, ?_⟩
      · simp only [runStages, hr]
        exact hrest
      · intro _ hall
        refine hprop ?_ (fun t ht => hall t (List.mem_cons_of_mem s ht))
        rw [herr]
        exact hall s (List.mem_cons_self s rest)
    · refine ⟨st, runStages_err_frozen env (s :: rest) st he, fun h0 _ => absurd h0 he⟩

theorem stageInv_empty (env : Env) (sigma : Status) :
    StageInv env { err := none, status := sigma, ran := [], names := [], result := Result.empty } :=
  ⟨fun _ s hs => absurd hs (List.not_mem_nil s), fun s hs => absurd hs (List.not_mem_nil s)⟩

theorem reconcile_ok_cases (env : Env) (stored : PostgresCluster) (o : Outcome)
    (hrun : reconcile env stored = Except.ok o) :
    (o.ran = [] ∧ o.patched = false ∧ o.persistedStatus = stored.status)
    ∨ (∃ st : PipeState,
        runStages env (pipelineStages (env.defaultSpec stored.spec).instanceSets.length)
          { err := none, status := stored.status, ran := [], names := [],
            result := Result.empty } = Except.ok st
        ∧ o.ran = st.ran ∧ o.result = st.result
        ∧ (st.err = none ∨ (o.error = st.err ∧ o.patched = false ∧ o.persistedStatus = stored.status))) := by
  cases hg : env.getErr with
  | some ge =>
    simp only [reconcile, hg] at hrun
    cases ge
    · cases hrun
      exact Or.inl ⟨rfl, rfl, rfl⟩
    · cases hrun
      exact Or.inl ⟨rfl, rfl, rfl⟩
  | none =>
    simp only [reconcile, hg] at hrun
    cases hd : stored.deletionTimestamp with
    | some t =>
      simp only [handleDelete, hd, Option.isSome_some, if_true] at hrun
      cases hde : env.deleteErr <;> simp only [hde] at hrun
      · cases hrun
        exact Or.inl ⟨rfl, rfl, rfl⟩
      · cases hrun
        exact Or.inl ⟨rfl, rfl, rfl⟩
    | none =>
      simp only [handleDelete, hd, Option.isSome_none, Bool.false_eq_true, if_false] at hrun
      by_cases hn : stored.name = "postgres"
      · simp only [hn, if_true] at hrun
        cases hrun
        exact Or.inl ⟨rfl, rfl, rfl⟩
      · simp only [if_neg hn] at hrun
        unfold pipelinePhase at hrun
        dsimp only at hrun
        cases hr : runStages env
            (pipelineStages (env.defaultSpec stored.spec).instanceSets.length)
            { err := none, status := stored.status, ran := [], names := [],
              result := Result.empty } with
        | error p =>
          rw [hr] at hrun
          exact Except.noConfusion hrun
        | ok st =>
          simp only [hr] at hrun
          refine Or.inr ⟨st, rfl, ?_⟩
          split at hrun
          next hc =>
            cases hp : env.patchErr <;> simp only [hp] at hrun <;> cases hrun <;>
              exact ⟨rfl, rfl, Or.inl hc.1⟩
          next hc =>
            cases hrun
            by_cases he : st.err = none
            · exact ⟨rfl, rfl, Or.inl he⟩
            · exact ⟨rfl, rfl, Or.inr ⟨rfl, rfl, rfl⟩⟩

theorem reconcile_normal (env : Env) (stored : PostgresCluster)
    (hget : env.getErr = none) (hdel : stored.deletionTimestamp = none)
    (hname : ¬ stored.name = "postgres") :
    reconcile env stored =
      match runStages env (pipelineStages (env.defaultSpec stored.spec).instanceSets.length)
          { err := none, status := stored.status, ran := [], names := [],
            result := Result.empty } with
      | Except.error p => Except.error p
      | Except.ok st =>
        if st.err = none ∧
            ¬({ observedGeneration := stored.generation, rest := st.status.rest } : Status)
              = stored.status then
          match env.patchErr with
          | some e =>
            Except.ok { result := st.result, error := some e, ran := st.ran,
                        names := st.names, events := [], patched := true,
                        finalStatus := { observedGeneration := stored.generation,
                                         rest := st.status.rest },
                        persistedStatus := stored.status }
          | none =>
            Except.ok { result := st.result, error := none, ran := st.ran,
                        names := st.names, events := [], patched := true,
                        finalStatus := { observedGeneration := stored.generation,
                                         rest := st.status.rest },
                        persistedStatus := { observedGeneration := stored.generation,
                                             rest := st.status.rest } }
        else
          Except.ok { result := st.result, error := st.err, ran := st.ran,
                      names := st.names, events := [], patched := false,
                      finalStatus := { observedGeneration := stored.generation,
                                       rest := st.status.rest },
                      persistedStatus := stored.status } := by
  simp only [reconcile, hget]
  simp only [handleDelete, hdel, Option.isSome_none, Bool.false_eq_true, if_false]
  simp only [if_neg hname]
  unfold pipelinePhase
  dsimp only

/-- C1: for every reconcile attempt in which some pipeline stage returns an
error, no status patch is performed and the stored status — in particular
its ObservedGeneration — is unchanged. (The in-memory copy sets
ObservedGeneration unconditionally, but it is never persisted on an
erroring attempt.) -/
theorem observedGenerationNotAdvancedOnStageError (env : Env) (stored : PostgresCluster)
    (o : Outcome) (hrun : reconcile env stored = Except.ok o)
    (hfail : ∃ s ∈ o.ran, ¬ env.stageErr s = none) :
    o.patched = false ∧ o.persistedStatus = stored.status ∧
    o.persistedStatus.observedGeneration = stored.status.observedGeneration := by
  obtain ⟨s, hs, hserr⟩ := hfail
  rcases reconcile_ok_cases env stored o hrun with ⟨hran, hp, hpers⟩ | ⟨st, hr, hran, _, hrest⟩
  · rw [hran] at hs
    exact absurd hs (List.not_mem_nil s)
  · have hinv := runStages_inv env _ _ st hr (stageInv_empty env stored.status)
    rcases hrest with he | ⟨_, hp, hpers⟩
    · exact absurd (hinv.1 he s (hran ▸ hs)) hserr
    · exact ⟨hp, hpers, by rw [hpers]⟩

/-- C6: the pipeline fails fast — in every reconcile attempt, every invoked
stage except possibly the last invoked one succeeded, so once a stage
returns a non-nil error no later stage function is invoked during that
attempt. -/
theorem pipelineFailFast (env : Env) (stored : PostgresCluster) (o : Outcome)
    (hrun : reconcile env stored = Except.ok o) :
    ∀ s ∈ o.ran.dropLast, env.stageErr s = none := by
  rcases reconcile_ok_cases env stored o hrun with ⟨hran, _, _⟩ | ⟨st, hr, hran, _, _⟩
  · intro s hs
    rw [hran] at hs
    exact absurd hs (List.not_mem_nil s)
  · have hinv := runStages_inv env _ _ st hr (stageInv_empty env stored.status)
    intro s hs
    rw [hran] at hs
    exact hinv.2 s hs

/-- C2: after a reconcile attempt in which every stage succeeds, the status
subresource is patched exactly when the resulting status differs from the
pre-reconcile snapshot; when it is equal, no status write happens and the
stored status is unchanged. -/
theorem statusPatchIffChanged (env : Env) (stored : PostgresCluster) (o : Outcome)
    (hget : env.getErr = none) (hdel : stored.deletionTimestamp = none)
    (hname : ¬ stored.name = "postgres")
    (hall : ∀ s, env.stageErr s = none)
    (hrun : reconcile env stored = Except.ok o) :
    (o.patched = true ↔ ¬ o.finalStatus = stored.status)
    ∧ (o.finalStatus = stored.status → o.patched = false ∧ o.persistedStatus = stored.status) := by
  rw [reconcile_normal env stored hget hdel hname] at hrun
  cases hr : runStages env (pipelineStages (env.defaultSpec stored.spec).instanceSets.length)
      { err := none, status := stored.status, ran := [], names := [],
        result := Result.empty } with
  | error p =>
    rw [hr] at hrun
    exact Except.noConfusion hrun
  | ok st =>
    simp only [hr] at hrun
    have he : st.err = none := runStages_all_ok env _ _ st hr (fun s _ => hall s) rfl
    split at hrun
    next hc =>
      cases hp : env.patchErr <;> simp only [hp] at hrun <;> cases hrun
      · exact ⟨⟨fun _ => hc.2, fun _ => rfl⟩, fun hfs => absurd hfs hc.2⟩
      · exact ⟨⟨fun _ => hc.2, fun _ => rfl⟩, fun hfs => absurd hfs hc.2⟩
    next hc =>
      cases hrun
      have hfs : ({ observedGeneration := stored.generation, rest := st.status.rest } : Status)
          = stored.status := by
        by_contra hne
        exact hc ⟨he, hne⟩
      exact ⟨⟨fun hpt => absurd hpt Bool.false_ne_true, fun hne => absurd hfs hne⟩,
        fun _ => ⟨rfl, rfl⟩⟩

/-- C10: when the per-instance-set stage returns a nil StatefulSet list
together with an error, the unconditional iteration over the list's items
dereferences the nil pointer and the attempt faults instead of reaching the
error path. -/
theorem nilInstanceSetListPanics (env : Env) (stored : PostgresCluster) (e : Err)
    (hget : env.getErr = none) (hdel : stored.deletionTimestamp = none)
    (hname : ¬ stored.name = "postgres")
    (hlead : ∀ s ∈ leadingStages, env.stageErr s = none)
    (hne : ¬ (env.defaultSpec stored.spec).instanceSets = [])
    (hnil : env.instanceSetList 0 = none)
    (_herr : env.stageErr (Stage.instanceSet 0) = some e) :
    reconcile env stored = Except.error GoPanic.nilPointerDereference := by
  obtain ⟨k, hk⟩ : ∃ k, (env.defaultSpec stored.spec).instanceSets.length = k + 1 := by
    cases hl : (env.defaultSpec stored.spec).instanceSets with
    | nil => exact absurd hl hne
    | cons a l => exact ⟨l.length, by simp [hl]⟩
  have hrs : runStages env (pipelineStages (k + 1))
      { err := none, status := stored.status, ran := [], names := [],
        result := Result.empty }
      = Except.error GoPanic.nilPointerDereference := by
    have hL : ∀ s ∈ leadingStages, ∀ i, ¬ s = Stage.instanceSet i := by
      intro s hs i hcon
      subst hcon
      simp [leadingStages] at hs
    obtain ⟨st1, h1, hprop⟩ := runStages_no_instance_ok env leadingStages
      { err := none, status := stored.status, ran := [], names := [],
        result := Result.empty } hL
    have he1 : st1.err = none := hprop rfl hlead
    have h2 : runStage env (Stage.instanceSet 0) st1
        = Except.error GoPanic.nilPointerDereference := by
      unfold runStage
      rw [if_pos he1]
      simp only [runStageBody, hnil]
    unfold pipelineStages
    rw [List.append_assoc, runStages_append, h1, List.range_succ_eq_map]
    simp only [List.map_cons, List.cons_append, runStages, h2]
  rw [reconcile_normal env stored hget hdel hname, hk, hrs]

theorem runStage_pgBackRest_ok (env : Env) (st : PipeState) (he : st.err = none) :
    runStage env Stage.pgBackRest st = Except.ok
      { st with ran := st.ran ++ [Stage.pgBackRest],
                status := env.stageStatus Stage.pgBackRest st.status,
                err := env.stageErr Stage.pgBackRest,
                result := if env.stageErr Stage.pgBackRest = none
                          then updateReconcileResult st.result env.pgBackRestResult
                          else st.result } := by
  unfold runStage
  rw [if_pos he]
  rfl

theorem runStage_pgBouncer_ok (env : Env) (st : PipeState) (he : st.err = none) :
    runStage env Stage.pgBouncer st = Except.ok
      { st with ran := st.ran ++ [Stage.pgBouncer],
                status := env.stageStatus Stage.pgBouncer st.status,
                err := env.stageErr Stage.pgBouncer } := by
  unfold runStage
  rw [if_pos he]
  rfl

theorem pipeline_result_char (env : Env) (n : Nat) (st0 st : PipeState)
    (h0 : st0.result = Result.empty)
    (h : runStages env (pipelineStages n) st0 = Except.ok st) :
    st.result = Result.empty
    ∨ (env.stageErr Stage.pgBackRest = none ∧ Stage.pgBackRest ∈ st.ran
       ∧ st.result = updateReconcileResult Result.empty env.pgBackRestResult) := by
  have hL1 : ∀ s ∈ leadingStages ++ (List.range n).map Stage.instanceSet,
      ¬ s = Stage.pgBackRest := by
    intro s hs hcon
    subst hcon
    rcases List.mem_append.mp hs with h1 | h1
    · simp [leadingStages] at h1
    · rcases List.mem_map.mp h1 with ⟨i, _, hcon2⟩
      exact Stage.noConfusion hcon2
  unfold pipelineStages at h
  rw [runStages_append] at h
  cases h1 : runStages env (leadingStages ++ (List.range n).map Stage.instanceSet) st0 with
  | error p =>
    rw [h1] at h
    exact Except.noConfusion h
  | ok st1 =>
    simp only [h1] at h
    have hres1 : st1.result = Result.empty := by
      rw [runStages_result_eq env _ st0 st1 hL1 h1, h0]
    by_cases he1 : st1.err = none
    · cases he2 : env.stageErr Stage.pgBackRest with
      | some err2 =>
        have h2 := runStage_pgBackRest_ok env st1 he1
        rw [he2, if_neg (Option.some_ne_none err2)] at h2
        simp only [runStages, h2] at h
        have h3 := runStage_skip env Stage.pgBouncer
          { st1 with ran := st1.ran ++ [Stage.pgBackRest],
                     status := env.stageStatus Stage.pgBackRest st1.status,
                     err := some err2, result := st1.result }
          (fun hcon => Option.noConfusion hcon)
        simp only [h3] at h
        cases h
        exact Or.inl hres1
      | none =>
        have h2 := runStage_pgBackRest_ok env st1 he1
        rw [he2, if_pos rfl] at h2
        simp only [runStages, h2] at h
        have h3 := runStage_pgBouncer_ok env
          { st1 with ran := st1.ran ++ [Stage.pgBackRest],
                     status := env.stageStatus Stage.pgBackRest st1.status,
                     err := none,
                     result := updateReconcileResult st1.result env.pgBackRestResult } rfl
        simp only [h3] at h
        cases h
        refine Or.inr ⟨rfl, by simp, ?_⟩
        show updateReconcileResult st1.result env.pgBackRestResult
          = updateReconcileResult Result.empty env.pgBackRestResult
        rw [hres1]
    · rw [runStages_err_frozen env _ st1 he1] at h
      cases h
      exact Or.inl hres1

/-- C4 (amended): once a pipeline stage errors, aggregation stops — the
erroring stage's own outcome is never merged and no status patch happens —
and the error is surfaced together with the result accumulated so far:
empty when the error occurred at or before the aggregating pgBackRest
stage, and pgBackRest's already-merged outcome when a later stage failed. -/
theorem aggregationStopsOnError (env : Env) (stored : PostgresCluster) (o : Outcome)
    (hrun : reconcile env stored = Except.ok o)
    (hfail : ∃ s ∈ o.ran, ¬ env.stageErr s = none) :
    ¬ o.error = none ∧ o.patched = false
    ∧ (o.result = Result.empty
       ∨ (env.stageErr Stage.pgBackRest = none ∧ Stage.pgBackRest ∈ o.ran
          ∧ o.result = updateReconcileResult Result.empty env.pgBackRestResult)) := by
  obtain ⟨s, hs, hserr⟩ := hfail
  rcases reconcile_ok_cases env stored o hrun with ⟨hran, hp, hpers⟩ | ⟨st, hr, hran, hres, hrest⟩
  · rw [hran] at hs
    exact absurd hs (List.not_mem_nil s)
  · have hinv := runStages_inv env _ _ st hr (stageInv_empty env stored.status)
    rcases hrest with he | ⟨herr, hp, _⟩
    · exact absurd (hinv.1 he s (hran ▸ hs)) hserr
    · have hst : ¬ st.err = none := fun hcon =>
        absurd (hinv.1 hcon s (hran ▸ hs)) hserr
      refine ⟨by rw [herr]; exact hst, hp, ?_⟩
      rcases pipeline_result_char env _ _ st rfl hr with h1 | ⟨h2a, h2b, h2c⟩
      · exact Or.inl (by rw [hres, h1])
      · exact Or.inr ⟨h2a, by rw [hran]; exact h2b, by rw [hres, h2c]⟩

/-- C3: a cluster named postgres that is not marked for deletion is
rejected: a warning event is recorded, no pipeline stage runs, no status
write happens, and the attempt returns no error and the empty result. -/
theorem reservedNameRejected (env : Env) (stored : PostgresCluster)
    (hget : env.getErr = none) (hdel : stored.deletionTimestamp = none)
    (hname : stored.name = "postgres") :
    reconcile env stored = Except.ok
      { result := Result.empty, error := none, ran := [], names := [],
        events := [("Warning", "InvalidName")], patched := false,
        finalStatus := stored.status, persistedStatus := stored.status } := by
  simp only [reconcile, hget]
  simp only [handleDelete, hdel, Option.isSome_none, Bool.false_eq_true, if_false]
  rw [if_pos hname]

/-- C5 (amended): for a cluster marked for deletion no pipeline stage runs
and no status write happens; a deletion-handler error is returned with the
empty result, and otherwise the handler's outcome is returned, except that
when verbose logging is enabled and the outcome has a positive
requeue-after delay, its Requeue flag is additionally set. -/
theorem deletionShortCircuits (env : Env) (stored : PostgresCluster) (t : Nat) (o : Outcome)
    (hget : env.getErr = none) (hdel : stored.deletionTimestamp = some t)
    (hrun : reconcile env stored = Except.ok o) :
    o.ran = [] ∧ o.patched = false ∧ o.persistedStatus = stored.status ∧
    (match env.deleteErr with
     | some e => o.error = some e ∧ o.result = Result.empty
     | none => o.error = none ∧
         o.result = (if env.logV1Enabled ∧ 0 < env.deleteResult.requeueAfter
                     then { env.deleteResult with requeue := true }
                     else env.deleteResult)) := by
  simp only [reconcile, hget] at hrun
  simp only [handleDelete, hdel, Option.isSome_some, if_true] at hrun
  cases hde : env.deleteErr <;> simp only [hde] at hrun <;> cases hrun
  · exact ⟨rfl, rfl, rfl, rfl, rfl⟩
  · exact ⟨rfl, rfl, rfl, rfl, rfl⟩

/-- C5 counterexample: with verbose logging enabled and a deletion outcome
carrying a positive delay but no Requeue flag, the attempt returns a result
that differs from the deletion handler's outcome (Requeue was forced on),
refuting the claim that the handler's outcome is returned unchanged. -/
theorem deletionOutcomeModified_counterexample :
    reconcile c5env c5stored = Except.ok c5out
    ∧ c5out.result = { requeue := true, requeueAfter := 5 }
    ∧ c5env.deleteResult = { requeue := false, requeueAfter := 5 }
    ∧ ¬ c5out.result = c5env.deleteResult := by
  refine ⟨by decide, by decide, by decide, by decide⟩

/-- C5 witness: the amended theorem evaluated on the concrete deleting
cluster. -/
theorem deletionShortCircuits_witness :
    reconcile c5env c5stored = Except.ok c5out ∧
    (c5out.ran = [] ∧ c5out.patched = false ∧ c5out.persistedStatus = c5stored.status ∧
     (match c5env.deleteErr with
      | some e => c5out.error = some e ∧ c5out.result = Result.empty
      | none => c5out.error = none ∧
          c5out.result = (if c5env.logV1Enabled ∧ 0 < c5env.deleteResult.requeueAfter
                          then { c5env.deleteResult with requeue := true }
                          else c5env.deleteResult))) :=
  ⟨by decide, deletionShortCircuits c5env c5stored 7 c5out rfl rfl (by decide)⟩

/-- C7: for every cluster, the HBA rule set built for the configuration
stages has exactly the four mandatory entries first, in the fixed order
local-peer, replication-md5, replication-database-md5, replication-reject,
followed by the pooler-contributed entries, followed by the default TLS
entry. -/
theorem hbaMandatoryOrder (cluster : PostgresCluster) :
    (buildPGHBAs cluster).mandatory
      = [hbaLocalPostgresPeer, hbaReplicationMd5, hbaReplicationDatabaseMd5,
         hbaReplicationReject] ++ pgbouncerPostgreSQLRules cluster
    ∧ (buildPGHBAs cluster).default = [hbaDefaultTLSMd5]
    ∧ (buildPGHBAs cluster).mandatory ++ (buildPGHBAs cluster).default
      = [hbaLocalPostgresPeer, hbaReplicationMd5, hbaReplicationDatabaseMd5,
         hbaReplicationReject] ++ (pgbouncerPostgreSQLRules cluster ++ [hbaDefaultTLSMd5])
    ∧ ((buildPGHBAs cluster).mandatory ++ (buildPGHBAs cluster).default).take 4
      = [hbaLocalPostgresPeer, hbaReplicationMd5, hbaReplicationDatabaseMd5,
         hbaReplicationReject] := by
  have h1 : (buildPGHBAs cluster).mandatory
      = [hbaLocalPostgresPeer, hbaReplicationMd5, hbaReplicationDatabaseMd5,
         hbaReplicationReject] ++ pgbouncerPostgreSQLRules cluster := rfl
  have h2 : (buildPGHBAs cluster).default = [hbaDefaultTLSMd5] := rfl
  have h3 : (buildPGHBAs cluster).mandatory ++ (buildPGHBAs cluster).default
      = [hbaLocalPostgresPeer, hbaReplicationMd5, hbaReplicationDatabaseMd5,
         hbaReplicationReject] ++ (pgbouncerPostgreSQLRules cluster ++ [hbaDefaultTLSMd5]) := by
    rw [h1, h2, List.append_assoc]
  exact ⟨h1, h2, h3, by rw [h3]; exact List.take_left' rfl⟩

theorem iniKeys_cons (p : String × String) (l : iniValueSet) :
    iniKeys (p :: l) = p.1 :: iniKeys l := rfl

theorem iniLookup_cons (p : String × String) (l : iniValueSet) (k : String) :
    iniLookup (p :: l) k = if p.1 == k then p.2 else iniLookup l k := by
  unfold iniLookup
  rw [List.find?_cons]
  cases hpk : p.1 == k <;> simp [hpk]

theorem iniLookup_perm (vs1 vs2 : iniValueSet) (h : vs1.Perm vs2) :
    (iniKeys vs1).Nodup → ∀ k, iniLookup vs1 k = iniLookup vs2 k := by
  induction h with
  | nil => exact fun _ _ => rfl
  | cons x h12 ih =>
    intro hnd k
    rw [iniKeys_cons, List.nodup_cons] at hnd
    rw [iniLookup_cons, iniLookup_cons]
    cases hpk : x.1 == k <;> simp only [hpk, if_true, if_false, Bool.false_eq_true]
    exact ih hnd.2 k
  | swap x y l =>
    intro hnd k
    rw [iniKeys_cons, iniKeys_cons, List.nodup_cons, List.nodup_cons] at hnd
    rw [iniLookup_cons, iniLookup_cons, iniLookup_cons, iniLookup_cons]
    cases hyk : y.1 == k <;> cases hxk : x.1 == k <;>
      simp only [hyk, hxk, if_true, if_false, Bool.false_eq_true]
    exact absurd (List.mem_cons_self x.1 (iniKeys l))
      (by rw [eq_of_beq hyk, ← eq_of_beq hxk] at hnd; exact hnd.1)
  | trans h1 h2 ih1 ih2 =>
    intro hnd k
    have hnd2 := (List.Perm.nodup_iff (h1.map Prod.fst)).mp hnd
    rw [ih1 hnd k, ih2 hnd2 k]

theorem iniEmitOrder_sorted (vs : iniValueSet) :
    List.Sorted (fun a b : String => a ≤ b) (iniEmitOrder vs) :=
  List.sorted_insertionSort _ _

theorem iniEmitOrder_perm (vs1 vs2 : iniValueSet) (h : vs1.Perm vs2) :
    iniEmitOrder vs1 = iniEmitOrder vs2 := by
  apply List.eq_of_perm_of_sorted ?_ (iniEmitOrder_sorted vs1) (iniEmitOrder_sorted vs2)
  exact ((List.perm_insertionSort _ _).trans (h.map Prod.fst)).trans
    (List.perm_insertionSort _ _).symm

theorem iniValueSetString_perm (vs1 vs2 : iniValueSet) (h : vs1.Perm vs2)
    (hnd : (iniKeys vs1).Nodup) :
    iniValueSetString vs1 = iniValueSetString vs2 := by
  unfold iniValueSetString
  rw [iniEmitOrder_perm vs1 vs2 h]
  have hf : (fun (b k : String) => b ++ k ++ " = " ++ iniLookup vs1 k ++ "\n")
      = fun (b k : String) => b ++ k ++ " = " ++ iniLookup vs2 k ++ "\n" := by
    funext b k
    rw [iniLookup_perm vs1 vs2 h hnd k]
  rw [hf]

theorem iniKeys_mandatory (cluster : PostgresCluster) :
    iniKeys (mandatoryINI cluster)
      = ["auth_file", "auth_query", "auth_user", "client_tls_sslmode",
         "client_tls_cert_file", "client_tls_key_file", "client_tls_ca_file",
         "conffile", "listen_addr", "listen_port", "server_tls_sslmode",
         "server_tls_ca_file", "unix_socket_dir"] := rfl

/-- C8: the configuration generator is deterministic — clusterINI produces
the same bytes whatever iteration order the three value-set maps present
their bindings in, every value set emits its keys in ascending
(lexicographic) order, and authFileContents is a function of the credential
bytes. -/
theorem clusterINIDeterministic (cluster : PostgresCluster)
    (earlyRep defaultsRep mandatoryRep : iniValueSet)
    (he : earlyRep.Perm earlyINI) (hd : defaultsRep.Perm defaultsINI)
    (hm : mandatoryRep.Perm (mandatoryINI cluster)) :
    clusterINIWithReps cluster earlyRep defaultsRep mandatoryRep = clusterINI cluster
    ∧ (∀ vs : iniValueSet, List.Sorted (fun a b : String => a ≤ b) (iniEmitOrder vs))
    ∧ (∀ p1 p2 : String, p1 = p2 → authFileContents p1 = authFileContents p2) := by
  have hnd1 : (iniKeys earlyRep).Nodup :=
    (List.Perm.nodup_iff (he.map Prod.fst)).mpr (by decide)
  have hnd2 : (iniKeys defaultsRep).Nodup :=
    (List.Perm.nodup_iff (hd.map Prod.fst)).mpr (by decide)
  have hnd3 : (iniKeys mandatoryRep).Nodup :=
    (List.Perm.nodup_iff (hm.map Prod.fst)).mpr
      (by rw [show List.map Prod.fst (mandatoryINI cluster) = iniKeys (mandatoryINI cluster)
                from rfl, iniKeys_mandatory]; decide)
  refine ⟨?_, iniEmitOrder_sorted, fun p1 p2 hp => by rw [hp]⟩
  unfold clusterINI clusterINIWithReps
  rw [iniValueSetString_perm earlyRep earlyINI he hnd1,
      iniValueSetString_perm defaultsRep defaultsINI hd hnd2,
      iniValueSetString_perm mandatoryRep (mandatoryINI cluster) hm hnd3]

/-- C8 witness: the determinism theorem evaluated on a concrete cluster
with each value set presented in reversed iteration order. -/
theorem clusterINIDeterministic_witness :
    c8earlyRep.Perm earlyINI ∧ c8defaultsRep.Perm defaultsINI
    ∧ c8mandatoryRep.Perm (mandatoryINI c8cluster)
    ∧ clusterINIWithReps c8cluster c8earlyRep c8defaultsRep c8mandatoryRep
        = clusterINI c8cluster :=
  have he : c8earlyRep.Perm earlyINI := by decide
  have hd : c8defaultsRep.Perm defaultsINI := by decide
  have hm : c8mandatoryRep.Perm (mandatoryINI c8cluster) := by decide
  ⟨he, hd, hm,
    (clusterINIDeterministic c8cluster c8earlyRep c8defaultsRep c8mandatoryRep he hd hm).1⟩

theorem count_expand_other (l : List Char) (c : Char) (hc : ¬ c = '"') :
    (l.flatMap (fun ch => if ch = '"' then ['"', '"'] else [ch])).count c = l.count c := by
  induction l with
  | nil => rfl
  | cons x xs ih =>
    rw [List.flatMap_cons, List.count_append, ih]
    by_cases hx : x = '"'
    · subst hx
      rw [if_pos rfl]
      simp [List.count_cons, hc]
    · rw [if_neg hx]
      simp only [List.count_cons, List.count_singleton, List.count_nil]
      omega

theorem count_expand_quote (l : List Char) :
    (l.flatMap (fun ch => if ch = '"' then ['"', '"'] else [ch])).count '"'
      = 2 * l.count '"' := by
  induction l with
  | nil => rfl
  | cons x xs ih =>
    rw [List.flatMap_cons, List.count_append, ih]
    by_cases hx : x = '"'
    · subst hx
      simp [List.count_cons]
      omega
    · rw [if_neg hx]
      simp [List.count_cons, hx]

/-- C9 (amended): for every password containing no newline character,
authFileContents yields exactly one newline-terminated line made of the two
double-quote-delimited fields — the pooler's PostgreSQL user, then the
password — separated by a single space, with every embedded double quote
doubled. -/
theorem authFileFormat (p : String) (hp : ¬ '\n' ∈ p.data) :
    authFileContents p = quoteField postgresqlUser ++ " " ++ quoteField p ++ "\n"
    ∧ (authFileContents p).data.count '\n' = 1
    ∧ (doubleQuotes p).data.count '"' = 2 * p.data.count '"' := by
  refine ⟨rfl, ?_, count_expand_quote p.data⟩
  have hq : (doubleQuotes p).data.count '\n' = 0 := by
    have h1 := count_expand_other p.data '\n' (by decide)
    have h2 : p.data.count '\n' = 0 := List.count_eq_zero.mpr hp
    rw [doubleQuotes]
    rw [h1, h2]
  have hqf : (quoteField p).data.count '\n' = 0 := by
    unfold quoteField
    simp only [String.data_append, List.count_append, hq]
    decide
  unfold authFileContents
  simp only [String.data_append, List.count_append, hqf]
  decide

/-- C9 counterexample: a password containing a newline yields two newline
characters in the output — not one line — since only double quotes are
escaped. -/
theorem authFileOneLine_counterexample :
    ¬ ((authFileContents "a\nb").data.count '\n' = 1)
    ∧ (authFileContents "a\nb").data.count '\n' = 2 := by
  exact ⟨by decide, by decide⟩

/-- C9 witness: the amended format theorem evaluated at a password that
contains a double quote and no newline. -/
theorem authFileFormat_witness :
    ¬ '\n' ∈ ("pw\"x").data
    ∧ (authFileContents "pw\"x"
        = quoteField postgresqlUser ++ " " ++ quoteField "pw\"x" ++ "\n"
       ∧ (authFileContents "pw\"x").data.count '\n' = 1
       ∧ (doubleQuotes "pw\"x").data.count '"' = 2 * ("pw\"x").data.count '"') :=
  ⟨by decide, authFileFormat "pw\"x" (by decide)⟩

/-- C1 witness: the theorem evaluated on a run whose ConfigMap stage fails;
the stored status (and its observed generation) is untouched. -/
theorem observedGenerationNotAdvancedOnStageError_witness :
    reconcile c1env c1stored = Except.ok c1out ∧
    (c1out.patched = false ∧ c1out.persistedStatus = c1stored.status ∧
     c1out.persistedStatus.observedGeneration = c1stored.status.observedGeneration) :=
  ⟨by decide,
    observedGenerationNotAdvancedOnStageError c1env c1stored c1out (by decide)
      ⟨Stage.clusterConfigMap, by decide, by decide⟩⟩

/-- C2 witness: the theorem evaluated on a fully successful run in which the
observed generation advances, so the status differs and is patched. -/
theorem statusPatchIffChanged_witness :
    reconcile c2env c2stored = Except.ok c2out ∧
    ((c2out.patched = true ↔ ¬ c2out.finalStatus = c2stored.status) ∧
     (c2out.finalStatus = c2stored.status →
       c2out.patched = false ∧ c2out.persistedStatus = c2stored.status)) :=
  ⟨by decide,
    statusPatchIffChanged c2env c2stored c2out rfl rfl (by decide) (fun _ => rfl) (by decide)⟩

/-- C3 witness: the reserved-name theorem evaluated on a concrete cluster
named postgres. -/
theorem reservedNameRejected_witness :
    reconcile c3env c3stored = Except.ok
      { result := Result.empty, error := none, ran := [], names := [],
        events := [("Warning", "InvalidName")], patched := false,
        finalStatus := c3stored.status, persistedStatus := c3stored.status } :=
  reservedNameRejected c3env c3stored rfl rfl rfl

/-- C4 counterexample: pgBackRest succeeds requesting a 5-unit delayed
requeue, then pgBouncer fails; the attempt surfaces the error together with
the previously accumulated non-empty result, refuting the claim that an
erroring attempt always returns the empty (zero-value) outcome. -/
theorem aggregatedResultKeptOnError_counterexample :
    reconcile c4env c4stored = Except.ok c4out
    ∧ ¬ c4out.error = none
    ∧ c4out.result = { requeue := false, requeueAfter := 5 }
    ∧ ¬ c4out.result = Result.empty := by
  refine ⟨by decide, by decide, by decide, by decide⟩

/-- C4 witness: the amended aggregation theorem evaluated on the same
failing-pgBouncer run. -/
theorem aggregationStopsOnError_witness :
    reconcile c4env c4stored = Except.ok c4out ∧
    (¬ c4out.error = none ∧ c4out.patched = false
     ∧ (c4out.result = Result.empty
        ∨ (c4env.stageErr Stage.pgBackRest = none ∧ Stage.pgBackRest ∈ c4out.ran
           ∧ c4out.result = updateReconcileResult Result.empty c4env.pgBackRestResult))) :=
  ⟨by decide,
    aggregationStopsOnError c4env c4stored c4out (by decide)
      ⟨Stage.pgBouncer, by decide, by decide⟩⟩

/-- C6 witness: the fail-fast theorem evaluated on a run whose pod-Service
stage fails: every earlier invoked stage succeeded and nothing later ran. -/
theorem pipelineFailFast_witness :
    reconcile c6env c6stored = Except.ok c6out ∧
    (∀ s ∈ c6out.ran.dropLast, c6env.stageErr s = none) :=
  ⟨by decide, pipelineFailFast c6env c6stored c6out (by decide)⟩

/-- C10 witness: the nil-dereference theorem evaluated on a run whose
instance-set stage returns a nil list together with an error. -/
theorem nilInstanceSetListPanics_witness :
    reconcile c10env c10stored = Except.error GoPanic.nilPointerDereference :=
  nilInstanceSetListPanics c10env c10stored "iserr" rfl rfl (by decide) (by decide)
    (by decide) rfl (by decide)

end PostgresOperator
